import Mathlib

/-!
Verification of the device-discovery and reconciliation engine of the
main-window controller (`src/ui/window.rs`).

The embedding is shallow: the registry (`HashMap`) becomes an association
list, page widgets become numeric identifiers handed out by a counter,
fallible D-Bus calls become `Except`/`Option` fields of an environment
record, and the poll sweep `watch_for_network_interfaces` becomes a pure
state transformer over a snapshot of the `/sys/class/net` directory
listing.
-/

namespace Resources

/-! ## Association lists (model of `std::collections::HashMap`) -/

/-- Lookup in an association list (first match wins; reachable states keep
keys unique, matching `HashMap`). -/
def alookup {κ ν : Type} [DecidableEq κ] : List (κ × ν) → κ → Option ν
  | [], _ => none
  | p :: ps, k => if p.1 = k then some p.2 else alookup ps k

theorem alookup_append {κ ν : Type} [DecidableEq κ] (ps qs : List (κ × ν)) (k : κ) :
    alookup (ps ++ qs) k =
      match alookup ps k with
      | some v => some v
      | none => alookup qs k := by
  induction ps with
  | nil => simp [alookup]
  | cons p ps ih =>
    by_cases h : p.1 = k <;> simp [alookup, h, ih]

theorem alookup_append_some {κ ν : Type} [DecidableEq κ] {ps : List (κ × ν)}
    (qs : List (κ × ν)) {k : κ} {v : ν} (h : alookup ps k = some v) :
    alookup (ps ++ qs) k = some v := by
  rw [alookup_append, h]

theorem alookup_isSome_iff_mem {κ ν : Type} [DecidableEq κ] {ps : List (κ × ν)} {k : κ} :
    (alookup ps k).isSome = true ↔ k ∈ ps.map Prod.fst := by
  induction ps with
  | nil => simp [alookup]
  | cons p ps ih =>
    by_cases h : p.1 = k <;> simp [alookup, h, ih]
    exact fun he => absurd he.symm h

/-- Filtering with a predicate that keeps every pair carrying key `k`
does not change the lookup at `k`. -/
theorem alookup_filter_keep {κ ν : Type} [DecidableEq κ] {ps : List (κ × ν)} {k : κ} {v : ν}
    {q : κ × ν → Bool} (hq : ∀ p ∈ ps, p.1 = k → q p = true)
    (h : alookup ps k = some v) : alookup (ps.filter q) k = some v := by
  induction ps with
  | nil => simp [alookup] at h
  | cons p ps ih =>
    by_cases hpk : p.1 = k
    · have hqp : q p = true := hq p (by simp) hpk
      simp only [alookup, hpk, if_true, eq_self_iff_true] at h
      simp [List.filter, hqp, alookup, hpk, h]
    · simp only [alookup, hpk, if_false, if_neg hpk] at h
      have ih' := ih (fun p hp hpk => hq p (by simp [hp]) hpk) h
      cases hqp : q p <;> simp [List.filter, hqp, alookup, hpk, ih']

/-- Filtering with a predicate that drops every pair carrying key `k`
erases the lookup at `k`. -/
theorem alookup_filter_drop {κ ν : Type} [DecidableEq κ] {ps : List (κ × ν)} {k : κ}
    {q : κ × ν → Bool} (hq : ∀ p ∈ ps, p.1 = k → q p = false) :
    alookup (ps.filter q) k = none := by
  induction ps with
  | nil => simp [alookup]
  | cons p ps ih =>
    have ih' := ih (fun p hp hpk => hq p (by simp [hp]) hpk)
    by_cases hpk : p.1 = k
    · have hqp : q p = false := hq p (by simp) hpk
      simp [List.filter, hqp, ih']
    · cases hqp : q p <;> simp [List.filter, hqp, alookup, hpk, ih']

/-- Removing all pairs with key `path` leaves lookups at other keys alone. -/
theorem alookup_filter_ne {κ ν : Type} [DecidableEq κ] {ps : List (κ × ν)} {path k : κ}
    (hne : k ≠ path) :
    alookup (ps.filter (fun p => decide (¬ p.1 = path))) k = alookup ps k := by
  induction ps with
  | nil => simp [alookup]
  | cons p ps ih =>
    by_cases hpp : p.1 = path
    · have hd : decide (¬ p.1 = path) = false := by simp [hpp]
      have hpk : ¬ p.1 = k := by rw [hpp]; exact fun h => hne h.symm
      rw [List.filter_cons, hd, if_neg (by simp), ih, alookup, if_neg hpk]
    · have hd : decide (¬ p.1 = path) = true := by simp [hpp]
      rw [List.filter_cons, hd, if_pos rfl]
      by_cases hpk : p.1 = k
      · rw [alookup, alookup, if_pos hpk, if_pos hpk]
      · rw [alookup, alookup, if_neg hpk, if_neg hpk]; exact ih

/-! ## Network interfaces: the poll sweep (`watch_for_network_interfaces`)

The sweep reads `/sys/class/net`.  A directory entry is modelled by the
file name of the interface (an `OsString`, which either decodes to UTF-8
text or does not) together with the outcome that
`NetworkInterface::from_sysfs` would have for it this sweep (that call
lives outside this file; only its success or failure is observable here).
The full path of the entry is the constant directory plus the file name,
so the file name itself serves as the registry key (`PathBuf`). -/

/-- A file name as returned by `DirEntry::file_name`: either valid UTF-8
text or an undecodable byte string (`to_str` returns `None`). -/
inductive FileName
  | utf8 (s : String)
  | raw (bytes : List Nat)
  deriving DecidableEq, Repr

/-- `OsStr::to_str`. -/
def FileName.toStr : FileName → Option String
  | utf8 s => some s
  | raw _ => none

/-- One entry of the directory snapshot: its file name and whether
`NetworkInterface::from_sysfs` succeeds for it during this sweep. -/
structure NetEntry where
  name : FileName
  resolves : Bool
  deriving DecidableEq, Repr

/-- The window state seen by the network watcher: `network_pages`
(`HashMap<PathBuf, ResNetwork>`, a page being modelled by the numeric
identity of the widget), the network portion of `content_stack`, and the
counter handing out widget identities. -/
structure NetState where
  pages : List (FileName × Nat)
  stack : List Nat
  next : Nat
  deriving DecidableEq, Repr

def emptyNet : NetState := ⟨[], [], 0⟩

/-- The keys currently tracked by `network_pages`. -/
def netKeys (st : NetState) : List FileName := st.pages.map Prod.fst

/-- The `for path in paths.flatten()` loop of
`watch_for_network_interfaces`, threading the registry and the
`still_active_interfaces` accumulator:
* an entry whose name decodes to `"lo"` — or does not decode at all
  (`to_str().unwrap_or("lo")`) — is skipped;
* an entry already in `network_pages` is marked still active and skipped;
* otherwise, if `NetworkInterface::from_sysfs` succeeds, a fresh page is
  added to the content stack and inserted, and the entry is marked still
  active; on failure nothing happens this sweep. -/
def netRun : NetState → List FileName → List NetEntry → NetState × List FileName
  | st, active, [] => (st, active)
  | st, active, e :: s =>
    if e.name.toStr.getD "lo" = "lo" then netRun st active s
    else if (alookup st.pages e.name).isSome then netRun st (active ++ [e.name]) s
    else if e.resolves then
      netRun ⟨st.pages ++ [(e.name, st.next)], st.stack ++ [st.next], st.next + 1⟩
        (active ++ [e.name]) s
    else netRun st active s

/-- One poll sweep of `watch_for_network_interfaces`.  `dir` is the result
of `std::fs::read_dir("/sys/class/net")`: `none` when the read fails (the
loop body is skipped), `some s` a snapshot listing.  After the loop, the
`drain_filter` pass evicts every tracked key that was not marked still
active and removes its page from the content stack. -/
def watch_for_network_interfaces (st : NetState) (dir : Option (List NetEntry)) : NetState :=
  let r := match dir with
    | some s => netRun st [] s
    | none => (st, [])
  let removed := r.1.pages.filter (fun p => decide (¬ p.1 ∈ r.2))
  { pages := r.1.pages.filter (fun p => decide (p.1 ∈ r.2)),
    stack := r.1.stack.filter (fun pid => decide (∀ p ∈ removed, ¬ p.2 = pid)),
    next := r.1.next }

/-- The polling loop: the window starts with no network pages and applies
one sweep per second. -/
def runSweeps (ss : List (Option (List NetEntry))) : NetState :=
  ss.foldl watch_for_network_interfaces emptyNet

/-! ### Lemmas about one sweep -/

theorem netRun_cons (st : NetState) (active : List FileName) (e : NetEntry) (s : List NetEntry) :
    netRun st active (e :: s) =
      if e.name.toStr.getD "lo" = "lo" then netRun st active s
      else if (alookup st.pages e.name).isSome then netRun st (active ++ [e.name]) s
      else if e.resolves then
        netRun ⟨st.pages ++ [(e.name, st.next)], st.stack ++ [st.next], st.next + 1⟩
          (active ++ [e.name]) s
      else netRun st active s := rfl

/-- The loop only ever appends to `network_pages`: an existing binding
survives (with its page identity). -/
theorem netRun_pages_mono : ∀ (s : List NetEntry) (st : NetState) (active : List FileName)
    {k : FileName} {v : Nat}, alookup st.pages k = some v →
    alookup (netRun st active s).1.pages k = some v := by
  intro s
  induction s with
  | nil => intro st active k v h; exact h
  | cons e s ih =>
    intro st active k v h
    rw [netRun_cons]
    split_ifs with h1 h2 h3
    · exact ih st active h
    · exact ih st _ h
    · exact ih _ _ (alookup_append_some _ h)
    · exact ih st active h

/-- `still_active_interfaces` only ever grows. -/
theorem netRun_active_mono : ∀ (s : List NetEntry) (st : NetState) (active : List FileName)
    {k : FileName}, k ∈ active → k ∈ (netRun st active s).2 := by
  intro s
  induction s with
  | nil => intro st active k h; exact h
  | cons e s ih =>
    intro st active k h
    rw [netRun_cons]
    split_ifs with h1 h2 h3
    · exact ih st active h
    · exact ih st _ (List.mem_append_left _ h)
    · exact ih _ _ (List.mem_append_left _ h)
    · exact ih st active h

/-- Everything pushed onto `still_active_interfaces` is the name of a
snapshot entry that survived the loopback/undecodable check. -/
theorem netRun_active_src : ∀ (s : List NetEntry) (st : NetState) (active : List FileName)
    {k : FileName}, k ∈ (netRun st active s).2 →
    k ∈ active ∨ ∃ e ∈ s, e.name = k ∧ ¬ e.name.toStr.getD "lo" = "lo" := by
  intro s
  induction s with
  | nil => intro st active k h; exact Or.inl h
  | cons e s ih =>
    intro st active k h
    rw [netRun_cons] at h
    split_ifs at h with h1 h2 h3
    · rcases ih _ _ h with h' | ⟨f, hf, hfk, hfp⟩
      · exact Or.inl h'
      · exact Or.inr ⟨f, List.mem_cons_of_mem _ hf, hfk, hfp⟩
    · rcases ih _ _ h with h' | ⟨f, hf, hfk, hfp⟩
      · rcases List.mem_append.mp h' with h'' | h''
        · exact Or.inl h''
        · exact Or.inr ⟨e, List.mem_cons_self _ _, (List.mem_singleton.mp h'').symm, h1⟩
      · exact Or.inr ⟨f, List.mem_cons_of_mem _ hf, hfk, hfp⟩
    · rcases ih _ _ h with h' | ⟨f, hf, hfk, hfp⟩
      · rcases List.mem_append.mp h' with h'' | h''
        · exact Or.inl h''
        · exact Or.inr ⟨e, List.mem_cons_self _ _, (List.mem_singleton.mp h'').symm, h1⟩
      · exact Or.inr ⟨f, List.mem_cons_of_mem _ hf, hfk, hfp⟩
    · rcases ih _ _ h with h' | ⟨f, hf, hfk, hfp⟩
      · exact Or.inl h'
      · exact Or.inr ⟨f, List.mem_cons_of_mem _ hf, hfk, hfp⟩

/-- Every key marked still active is tracked by `network_pages` when the
loop finishes. -/
theorem netRun_active_lookup : ∀ (s : List NetEntry) (st : NetState) (active : List FileName),
    (∀ k ∈ active, (alookup st.pages k).isSome = true) →
    ∀ k ∈ (netRun st active s).2, (alookup (netRun st active s).1.pages k).isSome = true := by
  intro s
  induction s with
  | nil => intro st active hinv k hk; exact hinv k hk
  | cons e s ih =>
    intro st active hinv k hk
    rw [netRun_cons] at hk ⊢
    split_ifs at hk ⊢ with h1 h2 h3
    · exact ih st active hinv k hk
    · refine ih st _ ?_ k hk
      intro k' hk'
      rcases List.mem_append.mp hk' with h' | h'
      · exact hinv k' h'
      · rw [List.mem_singleton.mp h']; exact h2
    · refine ih _ _ ?_ k hk
      intro k' hk'
      rcases List.mem_append.mp hk' with h' | h'
      · have := hinv k' h'
        cases hl : alookup st.pages k' with
        | none => rw [hl] at this; cases this
        | some v => simp [alookup_append_some _ hl]
      · rw [List.mem_singleton.mp h']
        cases hl : alookup st.pages e.name with
        | none => rw [alookup_append, hl]; simp [alookup]
        | some v =>
          exact absurd (show (alookup st.pages e.name).isSome = true by rw [hl]; rfl) h2
    · exact ih st active hinv k hk

/-- A snapshot entry that passes the loopback/undecodable check ends up
marked still active provided it either resolves this sweep or is already
tracked when the sweep starts. -/
theorem netRun_keeps : ∀ (s : List NetEntry) (st : NetState) (active : List FileName)
    (e : NetEntry), e ∈ s → ¬ e.name.toStr.getD "lo" = "lo" →
    (e.resolves = true ∨ (alookup st.pages e.name).isSome = true) →
    e.name ∈ (netRun st active s).2 := by
  intro s
  induction s with
  | nil => intro st active e he; cases he
  | cons f s ih =>
    intro st active e he hproc hres
    rw [netRun_cons]
    rcases List.mem_cons.mp he with rfl | he'
    · split_ifs with h1 h2
      · exact netRun_active_mono _ _ _ (List.mem_append_right _ (List.mem_singleton_self _))
      · exact netRun_active_mono _ _ _ (List.mem_append_right _ (List.mem_singleton_self _))
      · rcases hres with hr | hr
        · exact absurd hr h2
        · exact absurd hr h1
    · split_ifs with h1 h2 h3
      · exact ih st active e he' hproc hres
      · exact ih st _ e he' hproc hres
      · refine ih _ _ e he' hproc ?_
        rcases hres with hr | hr
        · exact Or.inl hr
        · refine Or.inr ?_
          cases hl : alookup st.pages e.name with
          | none => rw [hl] at hr; cases hr
          | some v => simp [alookup_append_some _ hl]
      · exact ih st active e he' hproc hres

/-- After the `drain_filter` pass, the tracked key set is exactly the
`still_active_interfaces` accumulation of this sweep. -/
theorem netKeys_sweep_iff {st : NetState} {s : List NetEntry} {k : FileName} :
    k ∈ netKeys (watch_for_network_interfaces st (some s)) ↔ k ∈ (netRun st [] s).2 := by
  constructor
  · intro hk
    simp only [watch_for_network_interfaces, netKeys, List.mem_map] at hk
    obtain ⟨p, hp, rfl⟩ := hk
    rw [List.mem_filter] at hp
    exact of_decide_eq_true hp.2
  · intro hk
    have hsome := netRun_active_lookup s st [] (by intro k hk; cases hk) k hk
    rw [alookup_isSome_iff_mem] at hsome
    obtain ⟨p, hp, hpk⟩ := List.mem_map.mp hsome
    simp only [watch_for_network_interfaces, netKeys, List.mem_map]
    refine ⟨p, ?_, hpk⟩
    rw [List.mem_filter]
    exact ⟨hp, decide_eq_true (by rw [hpk]; exact hk)⟩

/-- A tracked page whose key is marked still active survives the
`drain_filter` pass untouched (same widget identity). -/
theorem sweep_lookup_keep {st : NetState} {s : List NetEntry} {k : FileName} {v : Nat}
    (h : alookup st.pages k = some v) (hk : k ∈ (netRun st [] s).2) :
    alookup (watch_for_network_interfaces st (some s)).pages k = some v := by
  have h1 : alookup (netRun st [] s).1.pages k = some v := netRun_pages_mono s st [] h
  simp only [watch_for_network_interfaces]
  exact alookup_filter_keep (fun p _ hpk => decide_eq_true (by rw [hpk]; exact hk)) h1

/-- Every key tracked after a sweep passed the loopback/undecodable check. -/
theorem sweep_keys_processable {st : NetState} {s : List NetEntry} {k : FileName}
    (hk : k ∈ netKeys (watch_for_network_interfaces st (some s))) :
    ¬ k.toStr.getD "lo" = "lo" := by
  rcases netRun_active_src s st [] (netKeys_sweep_iff.mp hk) with h | ⟨e, _, hek, hproc⟩
  · cases h
  · rwa [hek] at hproc

/-- A sweep whose directory read failed evicts everything. -/
theorem netKeys_sweep_none (st : NetState) :
    netKeys (watch_for_network_interfaces st none) = [] := by
  simp [watch_for_network_interfaces, netKeys, List.filter_eq_nil_iff]

/-- Invariant of the polling loop: every tracked key passed the
loopback/undecodable check when it was inserted. -/
theorem foldl_keys_processable : ∀ (ss : List (Option (List NetEntry))) (st : NetState)
    (k : FileName), k ∈ netKeys (ss.foldl watch_for_network_interfaces st) →
    k ∈ netKeys st ∨ ¬ k.toStr.getD "lo" = "lo" := by
  intro ss
  induction ss with
  | nil => intro st k hk; exact Or.inl hk
  | cons s ss ih =>
    intro st k hk
    rw [List.foldl_cons] at hk
    rcases ih _ k hk with h | h
    · cases s with
      | some l => exact Or.inr (sweep_keys_processable h)
      | none => rw [netKeys_sweep_none] at h; cases h
    · exact Or.inr h

/-- Every key ever tracked by the polling loop (which starts from an empty
registry) passed the loopback/undecodable check. -/
theorem runSweeps_keys_processable (ss : List (Option (List NetEntry))) (k : FileName)
    (hk : k ∈ netKeys (runSweeps ss)) : ¬ k.toStr.getD "lo" = "lo" := by
  rcases foldl_keys_processable ss emptyNet k (by simpa [runSweeps] using hk) with h | h
  · simp [netKeys, emptyNet] at h
  · exact h

/-! ### The claims about the poll sweep -/

/-- C1: for every sequence of poll sweeps over directory snapshots
processed by `watch_for_network_interfaces`, after processing the final
snapshot the tracked key set equals that snapshot minus the loopback and
undecodable entries, regardless of per-entry resolution failures in
earlier sweeps, provided every key whose resolution fails in the final
sweep was already tracked before that sweep. -/
theorem net_sweep_convergence (ss : List (Option (List NetEntry))) (sn : List NetEntry)
    (h : ∀ e ∈ sn, ¬ e.name.toStr.getD "lo" = "lo" → e.resolves = false →
      e.name ∈ netKeys (runSweeps ss)) (k : FileName) :
    k ∈ netKeys (runSweeps (ss ++ [some sn])) ↔
      ∃ e ∈ sn, e.name = k ∧ ¬ e.name.toStr.getD "lo" = "lo" := by
  have hrw : runSweeps (ss ++ [some sn]) =
      watch_for_network_interfaces (runSweeps ss) (some sn) := by
    simp [runSweeps, List.foldl_append]
  rw [hrw, netKeys_sweep_iff]
  constructor
  · intro hk
    rcases netRun_active_src sn (runSweeps ss) [] hk with h' | h'
    · cases h'
    · exact h'
  · rintro ⟨e, he, rfl, hproc⟩
    by_cases hr : e.resolves = true
    · exact netRun_keeps sn _ [] e he hproc (Or.inl hr)
    · have hk := h e he hproc (by revert hr; cases e.resolves <;> simp)
      simp only [netKeys] at hk
      rw [← alookup_isSome_iff_mem] at hk
      exact netRun_keeps sn _ [] e he hproc (Or.inr hk)

theorem net_sweep_convergence_witness :
    (∀ e ∈ [NetEntry.mk (FileName.utf8 "eth0") false, NetEntry.mk (FileName.utf8 "wlan0") true,
        NetEntry.mk (FileName.utf8 "lo") true],
      ¬ e.name.toStr.getD "lo" = "lo" → e.resolves = false →
      e.name ∈ netKeys (runSweeps [some [NetEntry.mk (FileName.utf8 "eth0") true]]))
    ∧ (FileName.utf8 "wlan0") ∈ netKeys (runSweeps
        ([some [NetEntry.mk (FileName.utf8 "eth0") true]] ++
          [some [NetEntry.mk (FileName.utf8 "eth0") false,
            NetEntry.mk (FileName.utf8 "wlan0") true, NetEntry.mk (FileName.utf8 "lo") true]])) :=
  ⟨by decide,
    (net_sweep_convergence _ _ (by decide) _).mpr
      ⟨NetEntry.mk (FileName.utf8 "wlan0") true, by decide, rfl, by decide⟩⟩

/-- C2: a tracked key whose directory entry appears in the current
snapshot survives the sweep with the same page (no recreation), even when
its metadata resolution would fail this sweep; and a tracked key is
evicted only when no entry of the snapshot carries it. -/
theorem net_no_eviction_on_resolution_failure (ss : List (Option (List NetEntry)))
    (s : List NetEntry) :
    (∀ k p, alookup (runSweeps ss).pages k = some p → (∃ e ∈ s, e.name = k) →
      alookup (watch_for_network_interfaces (runSweeps ss) (some s)).pages k = some p)
    ∧ (∀ k, k ∈ netKeys (runSweeps ss) →
        k ∉ netKeys (watch_for_network_interfaces (runSweeps ss) (some s)) →
        ∀ e ∈ s, ¬ e.name = k) := by
  constructor
  · rintro k p hlk ⟨e, he, hek⟩
    have hmem : k ∈ netKeys (runSweeps ss) := by
      simp only [netKeys]
      exact alookup_isSome_iff_mem.mp (by rw [hlk]; rfl)
    have hproc := runSweeps_keys_processable ss k hmem
    have hact : e.name ∈ (netRun (runSweeps ss) [] s).2 :=
      netRun_keeps s _ [] e he (by rw [hek]; exact hproc)
        (Or.inr (by rw [hek, hlk]; rfl))
    rw [hek] at hact
    exact sweep_lookup_keep hlk hact
  · intro k hk hk' e he hek
    have hproc := runSweeps_keys_processable ss k hk
    have hsome : (alookup (runSweeps ss).pages k).isSome = true := by
      rw [alookup_isSome_iff_mem]
      simpa [netKeys] using hk
    have hact : e.name ∈ (netRun (runSweeps ss) [] s).2 :=
      netRun_keeps s _ [] e he (by rw [hek]; exact hproc)
        (Or.inr (by rw [hek]; exact hsome))
    rw [hek] at hact
    exact hk' (netKeys_sweep_iff.mpr hact)

theorem net_no_eviction_on_resolution_failure_witness :
    alookup (watch_for_network_interfaces
        (runSweeps [some [NetEntry.mk (FileName.utf8 "eth0") true]])
        (some [NetEntry.mk (FileName.utf8 "eth0") false])).pages
      (FileName.utf8 "eth0") = some 0 :=
  (net_no_eviction_on_resolution_failure [some [NetEntry.mk (FileName.utf8 "eth0") true]]
      [NetEntry.mk (FileName.utf8 "eth0") false]).1
    (FileName.utf8 "eth0") 0 (by decide)
    ⟨NetEntry.mk (FileName.utf8 "eth0") false, by decide, rfl⟩

/-- C8: an entry that is the loopback interface, or whose name is not
valid UTF-8 text, never has a page inserted for it: its key is never
tracked by the network-page registry. -/
theorem net_loopback_never_inserted (ss : List (Option (List NetEntry))) (k : FileName)
    (h : k.toStr.getD "lo" = "lo") : k ∉ netKeys (runSweeps ss) :=
  fun hk => absurd h (runSweeps_keys_processable ss k hk)

theorem net_loopback_never_inserted_witness :
    ((FileName.raw [255]).toStr.getD "lo" = "lo")
    ∧ (FileName.raw [255]) ∉ netKeys (runSweeps
        [some [NetEntry.mk (FileName.raw [255]) true, NetEntry.mk (FileName.utf8 "lo") true,
          NetEntry.mk (FileName.utf8 "eth0") true]]) :=
  ⟨by decide, net_loopback_never_inserted _ _ (by decide)⟩

/-! ## Storage drives

The UDisks2 world is modelled as an environment record per block device:
each D-Bus property read or proxy construction that the code performs is a
field holding the outcome the bus would give.  `anyhow::Error` is modelled
as the error message string.  A `?` in the source propagates the error out
of the surrounding function; the convention here is that a function
returns `DriveSt × Option String`, the state reached so far together with
the propagated error, mirroring that mutations already performed on
`self` survive an early return. -/

instance {ε α : Type} [DecidableEq ε] [DecidableEq α] : DecidableEq (Except ε α) := fun a b =>
  match a, b with
  | Except.ok x, Except.ok y => decidable_of_iff (x = y) (by simp)
  | Except.ok _, Except.error _ => Decidable.isFalse (by simp)
  | Except.error _, Except.ok _ => Decidable.isFalse (by simp)
  | Except.error e, Except.error f => decidable_of_iff (e = f) (by simp)

/-- `Except::is_ok`, the capability probe of the scan. -/
def isOkB {ε α : Type} : Except ε α → Bool
  | .ok _ => true
  | .error _ => false

/-- Validity of a byte sequence as UTF-8 (RFC 3629), as checked by
`String::from_utf8`: `need` continuation bytes are still expected, the
next one within `[lo, hi]`, later ones within `[0x80, 0xBF]`. -/
def utf8Loop : Nat → Nat → Nat → List Nat → Bool
  | 0, _, _, [] => true
  | 0, _, _, b :: rest =>
    if b < 0x80 then utf8Loop 0 0 0 rest
    else if b < 0xC2 then false
    else if b ≤ 0xDF then utf8Loop 1 0x80 0xBF rest
    else if b = 0xE0 then utf8Loop 2 0xA0 0xBF rest
    else if b ≤ 0xEC then utf8Loop 2 0x80 0xBF rest
    else if b = 0xED then utf8Loop 2 0x80 0x9F rest
    else if b ≤ 0xEF then utf8Loop 2 0x80 0xBF rest
    else if b = 0xF0 then utf8Loop 3 0x90 0xBF rest
    else if b ≤ 0xF3 then utf8Loop 3 0x80 0xBF rest
    else if b = 0xF4 then utf8Loop 3 0x80 0x8F rest
    else false
  | _ + 1, _, _, [] => false
  | n + 1, lo, hi, b :: rest =>
    if lo ≤ b ∧ b ≤ hi then utf8Loop n 0x80 0xBF rest else false

def utf8Valid (bs : List Nat) : Bool := utf8Loop 0 0 0 bs

/-- The `Drive` D-Bus interface of the drive object backing a block
device: the four property reads `add_drive_page` performs. -/
structure DriveProps where
  vendor : Except String String
  model : Except String String
  size : Except String Nat
  removable : Except String Bool
  deriving DecidableEq, Repr

/-- A `ResDrive` page as initialised by `add_drive_page`; `id` is the
widget's identity, `device` the NUL-filtered device-node bytes. -/
structure DrivePage where
  id : Nat
  vendor : String
  model : String
  device : List Nat
  capacity : Nat
  writable : Bool
  removable : Bool
  deriving DecidableEq, Repr

/-- The window state seen by the storage side: `drive_pages`
(`HashMap<String, ResDrive>`), the drive portion of `content_stack`
(widget identities), and the widget-identity counter. -/
structure DriveSt where
  drivePages : List (String × DrivePage)
  contentStack : List Nat
  next : Nat
  deriving DecidableEq, Repr

def emptyDrives : DriveSt := ⟨[], [], 0⟩

/-- `HashMap::insert`: overwrites an existing binding for the key,
otherwise appends. -/
def insertDrive (k : String) (v : DrivePage) : List (String × DrivePage) →
    List (String × DrivePage)
  | [] => [(k, v)]
  | p :: ps => if p.1 = k then (k, v) :: ps else p :: insertDrive k v ps

/-- `add_drive_page`: reads vendor, model, size and removable from the
drive proxy (each `?` returns the error before any mutation), then
initialises the page, adds it to the content stack and inserts it into
`drive_pages` under `key`. -/
def add_drive_page (st : DriveSt) (drive : DriveProps) (device : List Nat)
    (writable : Bool) (key : String) : DriveSt × Option String :=
  match drive.vendor with
  | .error e => (st, some e)
  | .ok vendor =>
  match drive.model with
  | .error e => (st, some e)
  | .ok model =>
  match drive.size with
  | .error e => (st, some e)
  | .ok capacity =>
  match drive.removable with
  | .error e => (st, some e)
  | .ok removable =>
    let page : DrivePage := ⟨st.next, vendor, model, device, capacity, writable, removable⟩
    ({ drivePages := insertDrive key page st.drivePages,
       contentStack := st.contentStack ++ [page.id],
       next := st.next + 1 }, none)

/-- One block device as seen on the bus during the full scan, each field
the outcome of the corresponding call in `look_for_drives`:
* `blockBuild`, `partitionBuild`, `swapBuild` — proxy path/build steps
  whose failure propagates via `?`;
* `partitionName`, `swapActive` — the `.name()` / `.active()` capability
  probes, tested with `.is_ok()`;
* `cryptoBackingDevice`, `drive` — required property reads whose failure
  propagates via `?`;
* `driveBuild` — the `DriveProxy` build, swallowed by `if let Ok`;
* `device`, `readOnly` — optional property reads, swallowed by
  `if let Ok` with defaults. -/
structure BlockDevice where
  blockBuild : Option String
  partitionBuild : Option String
  partitionName : Except String String
  swapBuild : Option String
  swapActive : Except String Bool
  cryptoBackingDevice : Except String String
  drive : Except String String
  driveBuild : Except String DriveProps
  device : Except String (List Nat)
  readOnly : Except String Bool
  deriving DecidableEq, Repr

/-- The body of the `for block_device in &block_devices` loop of
`look_for_drives`.  A block device is emitted as a drive page only when
the partition-name probe fails, the swapspace-active probe fails, and the
crypto-backing-device property is the sentinel `"/"`; the device-node
bytes are NUL-filtered and UTF-8 decoded (a decode failure propagates);
a missing device property yields the empty device string and a missing
read-only property defaults to writable; `add_drive_page` errors are
swallowed per device (`unwrap_or_default`). -/
def lookForDrivesStep (st : DriveSt) (d : BlockDevice) : DriveSt × Option String :=
  match d.blockBuild with
  | some e => (st, some e)
  | none =>
  match d.partitionBuild with
  | some e => (st, some e)
  | none =>
  let is_partition := isOkB d.partitionName
  match d.swapBuild with
  | some e => (st, some e)
  | none =>
  let is_swapspace := isOkB d.swapActive
  match d.cryptoBackingDevice with
  | .error e => (st, some e)
  | .ok cbd =>
  let has_crypto_backing_device : Bool := decide (¬ cbd = "/")
  match d.drive with
  | .error e => (st, some e)
  | .ok drive_object_path =>
  if !is_partition && !is_swapspace && !has_crypto_backing_device then
    match d.driveBuild with
    | .error _ => (st, none)
    | .ok props =>
      match (match d.device with
             | .ok device_bytes =>
               let filtered := device_bytes.filter (fun x => decide (¬ x = 0))
               if utf8Valid filtered then Except.ok filtered
               else Except.error "invalid utf-8 sequence"
             | .error _ => Except.ok []) with
      | .error e => (st, some e)
      | .ok device =>
        let writable := match d.readOnly with
          | .ok ro => !ro
          | .error _ => true
        ((add_drive_page st props device writable drive_object_path).1, none)
  else (st, none)

/-- The full storage scan over the block-device list returned by the
UDisks2 manager.  An error propagated by the loop body aborts the
remaining iterations and returns from `look_for_drives`; the caller
(`setup_widgets`) then discards it with `unwrap_or_default`, keeping the
pages inserted so far. -/
def look_for_drives : DriveSt → List BlockDevice → DriveSt × Option String
  | st, [] => (st, none)
  | st, d :: ds =>
    match lookForDrivesStep st d with
    | (st', none) => look_for_drives st' ds
    | (st', some e) => (st', some e)

/-- A `zvariant::Value` inside the `Device` property array; the handler
only distinguishes `U8` bytes (anything else becomes `b'?'` = 63). -/
inductive DPrim
  | u8 (n : Nat)
  | other
  deriving DecidableEq, Repr

/-- A `zvariant::Value` in an `InterfacesAdded` property bag, as far as
the handler inspects it. -/
inductive DValue
  | objectPath (s : String)
  | array (vs : List DPrim)
  | bool (b : Bool)
  | u8 (n : Nat)
  | other
  deriving DecidableEq, Repr

/-- The device-node computation of the `InterfacesAdded` fast path: if the
`Device` property is an array, unpack the `U8` bytes (anything else
becomes `b'?'`), drop NULs and UTF-8 decode (failure propagates);
otherwise the device string stays empty. -/
def deviceOfBlockData (block_data : List (String × DValue)) : Except String (List Nat) :=
  match alookup block_data "Device" with
  | some (DValue.array device_bytes) =>
    let unpacked := (device_bytes.map (fun x => match x with
      | DPrim.u8 byte => byte
      | DPrim.other => 63)).filter (fun x => decide (¬ x = 0))
    if utf8Valid unpacked then Except.ok unpacked
    else Except.error "invalid utf-8 sequence"
  | _ => Except.ok []

/-- The `InterfacesAdded` arm of `watch_for_drives`: the fast path fires
when the property bag has no `Partition` and no `Swapspace` sub-interface
but a `Block` one whose `Drive` property is an object path.  The drive
proxy for that path is then built (`?` propagates) and `add_drive_page`
is called with its error swallowed.  `driveProxy` models
`DriveProxy::builder(&conn).path(..).build()`. -/
def watch_for_drives_on_added (driveProxy : String → Except String DriveProps)
    (st : DriveSt) (ifaces : List (String × List (String × DValue))) :
    DriveSt × Option String :=
  if alookup ifaces "org.freedesktop.UDisks2.Partition" = none
      ∧ alookup ifaces "org.freedesktop.UDisks2.Swapspace" = none then
    match alookup ifaces "org.freedesktop.UDisks2.Block" with
    | some block_data =>
      match alookup block_data "Drive" with
      | some (DValue.objectPath object_path) =>
        match deviceOfBlockData block_data with
        | .error e => (st, some e)
        | .ok device =>
          let writable := match alookup block_data "ReadOnly" with
            | some (DValue.bool ro) => !ro
            | _ => true
          match driveProxy object_path with
          | .error e => (st, some e)
          | .ok props =>
            ((add_drive_page st props device writable object_path).1, none)
      | _ => (st, none)
    | none => (st, none)
  else (st, none)

/-- The `InterfacesRemoved` arm of `watch_for_drives`: when the removed
interface list names the `Drive` interface, the page registered under the
signal's object path — the drive's own path — is removed from the content
stack and dropped from `drive_pages`; an unknown key is a silent no-op. -/
def watch_for_drives_on_removed (st : DriveSt) (path : String) (ifaces : List String) :
    DriveSt :=
  if "org.freedesktop.UDisks2.Drive" ∈ ifaces then
    match alookup st.drivePages path with
    | some drive_page =>
      { drivePages := st.drivePages.filter (fun p => decide (¬ p.1 = path)),
        contentStack := st.contentStack.filter (fun pid => decide (¬ pid = drive_page.id)),
        next := st.next }
    | none => st
  else st

/-! ### The claims about the storage side -/

/-- C5: the full scan creates a drive page for a block device only when
all three capability probes are negative: the partition-name probe fails,
the swapspace-active probe fails, and the crypto-backing-device property
is the sentinel `"/"`.  In particular a block device whose
`CryptoBackingDevice` resolves to any other path is never emitted as a
plain drive. -/
theorem drive_page_requires_three_negative_probes (st : DriveSt) (d : BlockDevice)
    (h : ¬ (lookForDrivesStep st d).1 = st) :
    isOkB d.partitionName = false ∧ isOkB d.swapActive = false
      ∧ d.cryptoBackingDevice = Except.ok "/" := by
  simp only [lookForDrivesStep] at h
  repeat' split at h
  all_goals try exact absurd rfl h
  all_goals simp_all [Bool.and_eq_true, Bool.not_eq_true']

/-- A plain drive whose three probes are negative and whose page the scan
step does create. -/
def dPlainProbe : BlockDevice :=
  ⟨none, none, Except.error "no partition", none, Except.error "no swap",
    Except.ok "/", Except.ok "/org/freedesktop/UDisks2/drives/d1",
    Except.ok ⟨Except.ok "V", Except.ok "M", Except.ok 1000, Except.ok false⟩,
    Except.ok [47, 100, 101, 118, 47, 115, 100, 97], Except.ok false⟩

theorem drive_page_requires_three_negative_probes_witness :
    (¬ (lookForDrivesStep emptyDrives dPlainProbe).1 = emptyDrives)
    ∧ (isOkB dPlainProbe.partitionName = false
      ∧ isOkB dPlainProbe.swapActive = false
      ∧ dPlainProbe.cryptoBackingDevice = Except.ok "/") :=
  ⟨by decide, drive_page_requires_three_negative_probes emptyDrives dPlainProbe (by decide)⟩

/-- When one of the four drive property reads fails, `add_drive_page`
returns before reaching either mutation: the state comes back untouched
together with the error. -/
theorem add_drive_page_fails (st : DriveSt) (props : DriveProps)
    (h : isOkB props.vendor = false ∨ isOkB props.model = false
      ∨ isOkB props.size = false ∨ isOkB props.removable = false)
    (device : List Nat) (writable : Bool) (key : String) :
    (add_drive_page st props device writable key).1 = st
    ∧ ¬ (add_drive_page st props device writable key).2 = none := by
  rcases hv : props.vendor with ev | v
  · simp [add_drive_page, hv]
  rcases hm : props.model with em | m
  · simp [add_drive_page, hv, hm]
  rcases hs : props.size with es | sz
  · simp [add_drive_page, hv, hm, hs]
  rcases hr : props.removable with er | rm
  · simp [add_drive_page, hv, hm, hs, hr]
  · exfalso
    rcases h with h | h | h | h <;> simp [isOkB, hv, hm, hs, hr] at h

/-- C10: if any of the four drive property queries of `add_drive_page`
fails, the call returns the error having performed no mutation — the
registry and content stack are as before the call — and the caller in
`look_for_drives` swallows the error so enumeration continues with the
remaining devices. -/
theorem add_drive_page_error_no_mutation (st : DriveSt) (props : DriveProps)
    (h : isOkB props.vendor = false ∨ isOkB props.model = false
      ∨ isOkB props.size = false ∨ isOkB props.removable = false) :
    (∀ (device : List Nat) (writable : Bool) (key : String),
      (add_drive_page st props device writable key).1 = st
      ∧ ¬ (add_drive_page st props device writable key).2 = none)
    ∧ (∀ (d : BlockDevice) (ds : List BlockDevice) (key de : String),
      d.blockBuild = none → d.partitionBuild = none → d.swapBuild = none →
      isOkB d.partitionName = false → isOkB d.swapActive = false →
      d.cryptoBackingDevice = Except.ok "/" → d.drive = Except.ok key →
      d.driveBuild = Except.ok props → d.device = Except.error de →
      look_for_drives st (d :: ds) = look_for_drives st ds) := by
  refine ⟨add_drive_page_fails st props h, ?_⟩
  intro d ds key de h1 h2 h3 h4 h5 h6 h7 h8 h9
  have hg : decide (¬ ("/" : String) = "/") = false := by decide
  have hstep : lookForDrivesStep st d = (st, none) := by
    cases hro : d.readOnly with
    | ok b =>
      simp only [lookForDrivesStep, h1, h2, h3, h4, h5, h6, h7, h8, h9, hro, hg]
      simp [(add_drive_page_fails st props h [] (!b) key).1]
    | error e =>
      simp only [lookForDrivesStep, h1, h2, h3, h4, h5, h6, h7, h8, h9, hro, hg]
      simp [(add_drive_page_fails st props h [] true key).1]
  simp [look_for_drives, hstep]

theorem add_drive_page_error_no_mutation_witness :
    ((add_drive_page emptyDrives
        ⟨Except.error "vendor gone", Except.ok "M", Except.ok 5, Except.ok true⟩
        [] true "/drv").1 = emptyDrives
      ∧ ¬ (add_drive_page emptyDrives
        ⟨Except.error "vendor gone", Except.ok "M", Except.ok 5, Except.ok true⟩
        [] true "/drv").2 = none)
    ∧ look_for_drives emptyDrives
        [⟨none, none, Except.error "p", none, Except.error "s", Except.ok "/",
          Except.ok "/drv",
          Except.ok ⟨Except.error "vendor gone", Except.ok "M", Except.ok 5, Except.ok true⟩,
          Except.error "dev", Except.ok false⟩]
      = look_for_drives emptyDrives [] :=
  ⟨(add_drive_page_error_no_mutation emptyDrives
      ⟨Except.error "vendor gone", Except.ok "M", Except.ok 5, Except.ok true⟩
      (by decide)).1 [] true "/drv",
    (add_drive_page_error_no_mutation emptyDrives
      ⟨Except.error "vendor gone", Except.ok "M", Except.ok 5, Except.ok true⟩
      (by decide)).2 _ [] "/drv" "dev" rfl rfl rfl (by decide) (by decide) rfl rfl rfl rfl⟩

/-- A healthy plain drive for the scan-abort counterexample: every probe
negative, every required read succeeding. -/
def dGoodScan : BlockDevice :=
  ⟨none, none, Except.error "no partition", none, Except.error "no swap",
    Except.ok "/", Except.ok "/drv2",
    Except.ok ⟨Except.ok "V2", Except.ok "M2", Except.ok 2000, Except.ok false⟩,
    Except.ok [47, 100, 101, 118, 47, 115, 100, 98], Except.ok false⟩

/-- A block device whose required crypto-backing-device read errors. -/
def dBadScan : BlockDevice :=
  ⟨none, none, Except.error "no partition", none, Except.error "no swap",
    Except.error "crypto read failed", Except.ok "/drv1",
    Except.ok ⟨Except.ok "V1", Except.ok "M1", Except.ok 1000, Except.ok true⟩,
    Except.ok [], Except.ok false⟩

/-- C3 is false on the code: an error on a required per-device query
(here the crypto-backing-device read of the first device) propagates out
of `look_for_drives` via `?` and aborts enumeration of the remaining
devices — the second, healthy, plain drive gets no page, although scanning
it alone would create one.  The caller swallows the error only at
whole-scan granularity. -/
theorem scan_error_aborts_enumeration_cex :
    look_for_drives emptyDrives [dBadScan, dGoodScan]
      = (emptyDrives, some "crypto read failed")
    ∧ alookup (look_for_drives emptyDrives [dBadScan, dGoodScan]).1.drivePages "/drv2" = none
    ∧ ¬ alookup (look_for_drives emptyDrives [dGoodScan]).1.drivePages "/drv2" = none := by
  decide

/-- C3 amended: an error on any of the three required per-device queries
— the crypto-backing-device read, the drive-path read, or the UTF-8
decoding of the device bytes — aborts the whole remaining enumeration,
returning that error from `look_for_drives`; only the drive-proxy build
failure and the drive property-query failures inside `add_drive_page`
are swallowed per device, letting the scan continue. -/
theorem scan_error_propagation (st : DriveSt) (d : BlockDevice) (ds : List BlockDevice)
    (h1 : d.blockBuild = none) (h2 : d.partitionBuild = none) (h3 : d.swapBuild = none) :
    (∀ e, d.cryptoBackingDevice = Except.error e →
      look_for_drives st (d :: ds) = (st, some e))
    ∧ (∀ e cbd, d.cryptoBackingDevice = Except.ok cbd → d.drive = Except.error e →
      look_for_drives st (d :: ds) = (st, some e))
    ∧ (∀ dp props bytes, isOkB d.partitionName = false → isOkB d.swapActive = false →
      d.cryptoBackingDevice = Except.ok "/" → d.drive = Except.ok dp →
      d.driveBuild = Except.ok props → d.device = Except.ok bytes →
      utf8Valid (bytes.filter (fun x => decide (¬ x = 0))) = false →
      look_for_drives st (d :: ds) = (st, some "invalid utf-8 sequence"))
    ∧ (∀ e dp, d.cryptoBackingDevice = Except.ok "/" → d.drive = Except.ok dp →
      d.driveBuild = Except.error e →
      look_for_drives st (d :: ds) = look_for_drives st ds)
    ∧ (∀ dp props de, d.cryptoBackingDevice = Except.ok "/" → d.drive = Except.ok dp →
      d.driveBuild = Except.ok props → d.device = Except.error de →
      (isOkB props.vendor = false ∨ isOkB props.model = false
        ∨ isOkB props.size = false ∨ isOkB props.removable = false) →
      look_for_drives st (d :: ds) = look_for_drives st ds) := by
  have hg : decide (¬ ("/" : String) = "/") = false := by decide
  refine ⟨?_, ?_, ?_, ?_, ?_⟩
  · intro e h4
    have hstep : lookForDrivesStep st d = (st, some e) := by
      simp only [lookForDrivesStep, h1, h2, h3, h4]
    simp [look_for_drives, hstep]
  · intro e cbd h4 h5
    have hstep : lookForDrivesStep st d = (st, some e) := by
      simp only [lookForDrivesStep, h1, h2, h3, h4, h5]
    simp [look_for_drives, hstep]
  · intro dp props bytes hp hs h4 h5 h6 h7 hval
    have hstep : lookForDrivesStep st d = (st, some "invalid utf-8 sequence") := by
      simp only [lookForDrivesStep, h1, h2, h3, hp, hs, h4, h5, h6, h7, hg, hval]
      simp
    simp [look_for_drives, hstep]
  · intro e dp h4 h5 h6
    have hstep : lookForDrivesStep st d = (st, none) := by
      simp only [lookForDrivesStep, h1, h2, h3, h4, h5, h6, hg]
      simp
    simp [look_for_drives, hstep]
  · intro dp props de h4 h5 h6 h7 hfail
    have hstep : lookForDrivesStep st d = (st, none) := by
      cases hro : d.readOnly with
      | ok b =>
        simp only [lookForDrivesStep, h1, h2, h3, h4, h5, h6, h7, hro, hg]
        simp [(add_drive_page_fails st props hfail [] (!b) dp).1]
      | error e =>
        simp only [lookForDrivesStep, h1, h2, h3, h4, h5, h6, h7, hro, hg]
        simp [(add_drive_page_fails st props hfail [] true dp).1]
    simp [look_for_drives, hstep]

/-- A block device whose required drive-path read errors. -/
def dDriveErrScan : BlockDevice :=
  ⟨none, none, Except.error "no partition", none, Except.error "no swap",
    Except.ok "/", Except.error "drive read failed",
    Except.ok ⟨Except.ok "V", Except.ok "M", Except.ok 1, Except.ok false⟩,
    Except.ok [], Except.ok false⟩

/-- A block device whose NUL-filtered device bytes are not valid UTF-8. -/
def dUtfErrScan : BlockDevice :=
  ⟨none, none, Except.error "no partition", none, Except.error "no swap",
    Except.ok "/", Except.ok "/drv3",
    Except.ok ⟨Except.ok "V", Except.ok "M", Except.ok 1, Except.ok false⟩,
    Except.ok [255, 0, 254], Except.ok false⟩

/-- A block device reaching `add_drive_page` with a failing vendor read. -/
def dPropErrScan : BlockDevice :=
  ⟨none, none, Except.error "no partition", none, Except.error "no swap",
    Except.ok "/", Except.ok "/drv4",
    Except.ok ⟨Except.error "vendor read failed", Except.ok "M", Except.ok 1, Except.ok false⟩,
    Except.error "no device bytes", Except.ok false⟩

theorem scan_error_propagation_witness :
    look_for_drives emptyDrives [dBadScan, dGoodScan] = (emptyDrives, some "crypto read failed")
    ∧ look_for_drives emptyDrives [dDriveErrScan, dGoodScan]
      = (emptyDrives, some "drive read failed")
    ∧ look_for_drives emptyDrives [dUtfErrScan, dGoodScan]
      = (emptyDrives, some "invalid utf-8 sequence")
    ∧ look_for_drives emptyDrives [dPropErrScan, dGoodScan]
      = look_for_drives emptyDrives [dGoodScan] :=
  ⟨(scan_error_propagation emptyDrives dBadScan [dGoodScan] rfl rfl rfl).1
      "crypto read failed" rfl,
    (scan_error_propagation emptyDrives dDriveErrScan [dGoodScan] rfl rfl rfl).2.1
      "drive read failed" "/" rfl rfl,
    (scan_error_propagation emptyDrives dUtfErrScan [dGoodScan] rfl rfl rfl).2.2.1
      "/drv3" ⟨Except.ok "V", Except.ok "M", Except.ok 1, Except.ok false⟩ [255, 0, 254]
      (by decide) (by decide) rfl rfl rfl rfl (by decide),
    (scan_error_propagation emptyDrives dPropErrScan [dGoodScan] rfl rfl rfl).2.2.2.2
      "/drv4" ⟨Except.error "vendor read failed", Except.ok "M", Except.ok 1, Except.ok false⟩
      "no device bytes" rfl rfl rfl rfl (by decide)⟩

theorem alookup_insertDrive_self (k : String) (v : DrivePage) :
    ∀ ps : List (String × DrivePage), alookup (insertDrive k v ps) k = some v := by
  intro ps
  induction ps with
  | nil => simp [insertDrive, alookup]
  | cons p ps ih =>
    by_cases hp : p.1 = k <;> simp [insertDrive, hp, alookup, ih]

/-- C6: a drive page is removed only when the removed-interface list names
the `Drive` interface; then exactly the page registered under the event's
object path is removed, from the registry and from the content stack, and
every other binding and widget survives; an event whose path matches no
registered key leaves the state untouched. -/
theorem interfaces_removed_semantics (st : DriveSt) (path : String) (ifaces : List String) :
    (¬ "org.freedesktop.UDisks2.Drive" ∈ ifaces →
      watch_for_drives_on_removed st path ifaces = st)
    ∧ (alookup st.drivePages path = none →
      watch_for_drives_on_removed st path ifaces = st)
    ∧ (∀ pg, "org.freedesktop.UDisks2.Drive" ∈ ifaces →
      alookup st.drivePages path = some pg →
      alookup (watch_for_drives_on_removed st path ifaces).drivePages path = none
      ∧ (∀ k, ¬ k = path →
        alookup (watch_for_drives_on_removed st path ifaces).drivePages k
          = alookup st.drivePages k)
      ∧ ¬ pg.id ∈ (watch_for_drives_on_removed st path ifaces).contentStack
      ∧ ∀ pid ∈ st.contentStack, ¬ pid = pg.id →
        pid ∈ (watch_for_drives_on_removed st path ifaces).contentStack) := by
  refine ⟨?_, ?_, ?_⟩
  · intro h
    simp [watch_for_drives_on_removed, h]
  · intro h
    by_cases hm : "org.freedesktop.UDisks2.Drive" ∈ ifaces <;>
      simp [watch_for_drives_on_removed, hm, h]
  · intro pg hm hsome
    have hres : watch_for_drives_on_removed st path ifaces =
        { drivePages := st.drivePages.filter (fun p => decide (¬ p.1 = path)),
          contentStack := st.contentStack.filter (fun pid => decide (¬ pid = pg.id)),
          next := st.next } := by
      simp [watch_for_drives_on_removed, hm, hsome]
    rw [hres]
    refine ⟨?_, ?_, ?_, ?_⟩
    · exact alookup_filter_drop (fun p _ hp => by simp [hp])
    · intro k hk
      exact alookup_filter_ne hk
    · intro hmem
      rw [List.mem_filter] at hmem
      exact absurd rfl (of_decide_eq_true hmem.2)
    · intro pid hpid hne
      rw [List.mem_filter]
      exact ⟨hpid, decide_eq_true hne⟩

theorem interfaces_removed_semantics_witness :
    alookup (watch_for_drives_on_removed
        ⟨[("/drv1", ⟨0, "V", "M", [], 10, true, false⟩)], [0], 1⟩
        "/drv1" ["org.freedesktop.UDisks2.Drive"]).drivePages "/drv1" = none
    ∧ ¬ (0 : Nat) ∈ (watch_for_drives_on_removed
        ⟨[("/drv1", ⟨0, "V", "M", [], 10, true, false⟩)], [0], 1⟩
        "/drv1" ["org.freedesktop.UDisks2.Drive"]).contentStack :=
  ⟨((interfaces_removed_semantics ⟨[("/drv1", ⟨0, "V", "M", [], 10, true, false⟩)], [0], 1⟩
      "/drv1" ["org.freedesktop.UDisks2.Drive"]).2.2 ⟨0, "V", "M", [], 10, true, false⟩
      (by decide) (by decide)).1,
    ((interfaces_removed_semantics ⟨[("/drv1", ⟨0, "V", "M", [], 10, true, false⟩)], [0], 1⟩
      "/drv1" ["org.freedesktop.UDisks2.Drive"]).2.2 ⟨0, "V", "M", [], 10, true, false⟩
      (by decide) (by decide)).2.2.1⟩

/-- C7: on the `InterfacesAdded` fast path (no `Partition`, no
`Swapspace`, a `Block` sub-interface whose `Drive` property is present):
an absent `Device` property yields the empty device string, and an absent
`ReadOnly` property defaults the page to writable. -/
theorem added_fast_path_defaults (driveProxy : String → Except String DriveProps)
    (st : DriveSt) (ifaces : List (String × List (String × DValue)))
    (block_data : List (String × DValue)) (object_path : String)
    (props : DriveProps) (v m : String) (cap : Nat) (rem : Bool)
    (h1 : alookup ifaces "org.freedesktop.UDisks2.Partition" = none)
    (h2 : alookup ifaces "org.freedesktop.UDisks2.Swapspace" = none)
    (h3 : alookup ifaces "org.freedesktop.UDisks2.Block" = some block_data)
    (h4 : alookup block_data "Drive" = some (DValue.objectPath object_path))
    (h5 : driveProxy object_path = Except.ok props)
    (h6 : props.vendor = Except.ok v) (h7 : props.model = Except.ok m)
    (h8 : props.size = Except.ok cap) (h9 : props.removable = Except.ok rem) :
    (alookup block_data "Device" = none →
      ∃ st', watch_for_drives_on_added driveProxy st ifaces = (st', none)
        ∧ ∃ pg, alookup st'.drivePages object_path = some pg ∧ pg.device = [])
    ∧ (∀ dv, alookup block_data "ReadOnly" = none →
      deviceOfBlockData block_data = Except.ok dv →
      ∃ st', watch_for_drives_on_added driveProxy st ifaces = (st', none)
        ∧ ∃ pg, alookup st'.drivePages object_path = some pg ∧ pg.writable = true) := by
  constructor
  · intro hdev
    have hdov : deviceOfBlockData block_data = Except.ok [] := by
      simp [deviceOfBlockData, hdev]
    refine ⟨(add_drive_page st props []
        (match alookup block_data "ReadOnly" with
          | some (DValue.bool ro) => !ro
          | _ => true) object_path).1, ?_, ?_⟩
    · simp only [watch_for_drives_on_added, h1, h2, h3, h4, hdov, h5, and_self, if_true]
    · refine ⟨⟨st.next, v, m, [],
        cap, (match alookup block_data "ReadOnly" with
          | some (DValue.bool ro) => !ro
          | _ => true), rem⟩, ?_, rfl⟩
      simp only [add_drive_page, h6, h7, h8, h9]
      exact alookup_insertDrive_self _ _ _
  · intro dv hro hdov
    refine ⟨(add_drive_page st props dv true object_path).1, ?_, ?_⟩
    · simp only [watch_for_drives_on_added, h1, h2, h3, h4, hdov, h5, hro, and_self, if_true]
    · refine ⟨⟨st.next, v, m, dv, cap, true, rem⟩, ?_, rfl⟩
      simp only [add_drive_page, h6, h7, h8, h9]
      exact alookup_insertDrive_self _ _ _

/-- A drive-proxy environment answering every path with a healthy drive. -/
def dpFast : String → Except String DriveProps :=
  fun _ => Except.ok ⟨Except.ok "V", Except.ok "M", Except.ok 7, Except.ok false⟩

/-- A `Block` property bag with a `Drive` path but neither `Device` nor
`ReadOnly`. -/
def bdFast : List (String × DValue) := [("Drive", DValue.objectPath "/drv1")]

/-- An `InterfacesAdded` property map carrying only the `Block`
sub-interface. -/
def ifFast : List (String × List (String × DValue)) :=
  [("org.freedesktop.UDisks2.Block", bdFast)]

theorem added_fast_path_defaults_witness :
    (∃ st', watch_for_drives_on_added dpFast emptyDrives ifFast = (st', none)
      ∧ ∃ pg, alookup st'.drivePages "/drv1" = some pg ∧ pg.device = [])
    ∧ (∃ st', watch_for_drives_on_added dpFast emptyDrives ifFast = (st', none)
      ∧ ∃ pg, alookup st'.drivePages "/drv1" = some pg ∧ pg.writable = true) :=
  ⟨(added_fast_path_defaults dpFast emptyDrives ifFast bdFast "/drv1"
      ⟨Except.ok "V", Except.ok "M", Except.ok 7, Except.ok false⟩ "V" "M" 7 false
      (by decide) (by decide) (by decide) (by decide) (by decide)
      (by decide) (by decide) (by decide) (by decide)).1 (by decide),
    (added_fast_path_defaults dpFast emptyDrives ifFast bdFast "/drv1"
      ⟨Except.ok "V", Except.ok "M", Except.ok 7, Except.ok false⟩ "V" "M" 7 false
      (by decide) (by decide) (by decide) (by decide) (by decide)
      (by decide) (by decide) (by decide) (by decide)).2 [] (by decide) (by decide)⟩

/-! ## `setup_widgets`: startup sequencing and the joined loops

The task spawned by `setup_widgets` is a single cooperatively scheduled
async block: it awaits the full storage scan, then adds the GPU pages,
then enters `try_join!` over the storage-event subscription loop and the
1-second network polling loop.  Program order within the task is modelled
as a trace of atomic actions; the interleaving inside `try_join!` is an
arbitrary schedule over the two loops' actions. -/

/-- One observable action of the spawned startup task. -/
inductive Action
  | scanDevice (i : Nat)
  | gpuAdd (i : Nat)
  | driveEvent (i : Nat)
  | pollSweep (i : Nat)
  deriving DecidableEq, Repr

/-- The actions of the initial scan: one per block device actually
processed (an error propagating out of the loop ends the scan early). -/
def scanTrace : DriveSt → Nat → List BlockDevice → List Action
  | _, _, [] => []
  | st, i, d :: ds =>
    match lookForDrivesStep st d with
    | (st', none) => Action.scanDevice i :: scanTrace st' (i + 1) ds
    | (_, some _) => [Action.scanDevice i]

def gpuTrace (n : Nat) : List Action := (List.range n).map Action.gpuAdd

def eventTrace (n : Nat) : List Action := (List.range n).map Action.driveEvent

def pollTrace (n : Nat) : List Action := (List.range n).map Action.pollSweep

/-- An arbitrary cooperative interleaving of the two loops' actions,
driven by a boolean schedule (`true` picks the next storage event,
`false` the next poll sweep). -/
def interleave : List Bool → List Action → List Action → List Action
  | [], xs, ys => xs ++ ys
  | true :: r, xs, ys =>
    match xs with
    | [] => ys
    | x :: xs' => x :: interleave r xs' ys
  | false :: r, xs, ys =>
    match ys with
    | [] => xs
    | y :: ys' => y :: interleave r xs ys'

/-- The action trace of the task spawned by `setup_widgets`: the awaited
scan, then the GPU pages, then the joined watcher/poller phase. -/
def setup_widgets_trace (devs : List BlockDevice) (gpus : Nat) (sched : List Bool)
    (events sweeps : Nat) : List Action :=
  scanTrace emptyDrives 0 devs ++ gpuTrace gpus
    ++ interleave sched (eventTrace events) (pollTrace sweeps)

theorem scanTrace_all : ∀ (devs : List BlockDevice) (st : DriveSt) (i : Nat),
    ∀ x ∈ scanTrace st i devs, ∃ a, x = Action.scanDevice a := by
  intro devs
  induction devs with
  | nil => intro st i x hx; cases hx
  | cons d ds ih =>
    intro st i x hx
    rw [scanTrace] at hx
    split at hx
    · rcases List.mem_cons.mp hx with rfl | hx'
      · exact ⟨i, rfl⟩
      · exact ih _ _ x hx'
    · rcases List.mem_singleton.mp hx with rfl
      exact ⟨i, rfl⟩

theorem interleave_mem : ∀ (sched : List Bool) (xs ys : List Action) (x : Action),
    x ∈ interleave sched xs ys → x ∈ xs ∨ x ∈ ys := by
  intro sched
  induction sched with
  | nil => intro xs ys x hx; exact List.mem_append.mp hx
  | cons b r ih =>
    intro xs ys x hx
    cases b with
    | true =>
      cases xs with
      | nil => exact Or.inr hx
      | cons z zs =>
        rcases List.mem_cons.mp hx with rfl | hx'
        · exact Or.inl (List.mem_cons_self _ _)
        · rcases ih zs ys x hx' with h | h
          · exact Or.inl (List.mem_cons_of_mem _ h)
          · exact Or.inr h
    | false =>
      cases ys with
      | nil => exact Or.inl hx
      | cons z zs =>
        rcases List.mem_cons.mp hx with rfl | hx'
        · exact Or.inr (List.mem_cons_self _ _)
        · rcases ih xs zs x hx' with h | h
          · exact Or.inl h
          · exact Or.inr (List.mem_cons_of_mem _ h)

/-- C9: in the startup task, every action of the initial storage scan
precedes every processed storage event: no added/removed event is
processed while the initial scan is still in progress. -/
theorem scan_before_events (devs : List BlockDevice) (gpus : Nat) (sched : List Bool)
    (events sweeps : Nat) (i j a b : Nat)
    (hi : (setup_widgets_trace devs gpus sched events sweeps).get? i
      = some (Action.scanDevice a))
    (hj : (setup_widgets_trace devs gpus sched events sweeps).get? j
      = some (Action.driveEvent b)) :
    i < j := by
  set L1 := scanTrace emptyDrives 0 devs with hL1
  set L2 := gpuTrace gpus with hL2
  set L3 := interleave sched (eventTrace events) (pollTrace sweeps) with hL3
  have htr : setup_widgets_trace devs gpus sched events sweeps = L1 ++ (L2 ++ L3) := by
    rw [setup_widgets_trace, List.append_assoc]
  rw [htr] at hi hj
  have hjlen : L1.length ≤ j := by
    by_contra hlt
    push_neg at hlt
    rw [List.get?_append hlt] at hj
    obtain ⟨c, hc⟩ := scanTrace_all devs _ _ _ (List.get?_mem hj)
    cases hc
  have hilen : i < L1.length := by
    by_contra hge
    push_neg at hge
    rw [List.get?_append_right hge] at hi
    have hmem := List.get?_mem hi
    rcases List.mem_append.mp hmem with h | h
    · have : ∀ x ∈ L2, ∃ c, x = Action.gpuAdd c := by
        intro x hx
        obtain ⟨c, _, hc⟩ := List.mem_map.mp hx
        exact ⟨c, hc.symm⟩
      obtain ⟨c, hc⟩ := this _ h
      cases hc
    · rcases interleave_mem sched _ _ _ h with h' | h'
      · obtain ⟨c, _, hc⟩ := List.mem_map.mp h'
        cases hc
      · obtain ⟨c, _, hc⟩ := List.mem_map.mp h'
        cases hc
  exact lt_of_lt_of_le hilen hjlen

theorem scan_before_events_witness :
    ((setup_widgets_trace [dPlainProbe] 0 [] 1 0).get? 0 = some (Action.scanDevice 0)
      ∧ (setup_widgets_trace [dPlainProbe] 0 [] 1 0).get? 1 = some (Action.driveEvent 0))
    ∧ (0 : Nat) < 1 :=
  ⟨⟨by decide, by decide⟩,
    scan_before_events [dPlainProbe] 0 [] 1 0 0 1 0 0 (by decide) (by decide)⟩

/-- Cooperative execution of
`try_join!(watch_for_drives(), polling loop)`, the two tasks polled in
rounds: one storage-event step then one poll sweep per round.  `steps`
is the sequence of outcomes of the storage watcher's event-processing
steps and `budget` the number of poll sweeps still pending in the
observation window.  Following the semantics of
`futures_util::try_join!`, the first `Err` resolves the join immediately
with that error and the other future is dropped, so no further poll
sweeps run; if the watcher never errors all pending sweeps run.  The
result is the join outcome together with the number of poll sweeps that
actually ran. -/
def tryJoinRun : List (Except String Unit) → Nat → Option String × Nat
  | [], budget => (none, budget)
  | Except.error e :: _, _ => (some e, 0)
  | Except.ok _ :: ds, 0 => ((tryJoinRun ds 0).1, 0)
  | Except.ok _ :: ds, b + 1 => ((tryJoinRun ds b).1, (tryJoinRun ds b).2 + 1)

/-- `setup_widgets` handles the join result with
`.unwrap_or_default()`: whatever the outcome, it emits no log message
and discards any error. -/
def joinResultLogs : Option String × Nat → List String := fun _ => []

/-- C4 is false on the code: a fatal error in the storage-event loop
resolves `try_join!` immediately with that error, cancelling the polling
loop — none of its five pending sweeps runs, whereas with a healthy
watcher all five would — and `setup_widgets` discards the error with
`unwrap_or_default` without emitting any log. -/
theorem join_fatal_error_cancels_poll_cex :
    (tryJoinRun [Except.error "connection lost"] 5).2 = 0
    ∧ (tryJoinRun [Except.error "connection lost"] 5).1 = some "connection lost"
    ∧ joinResultLogs (tryJoinRun [Except.error "connection lost"] 5) = []
    ∧ (tryJoinRun [Except.ok ()] 5).2 = 5 := by
  exact ⟨rfl, rfl, rfl, rfl⟩

/-- C4 amended: a fatal error in the storage-event subscription loop
makes `try_join!` resolve with that error at once, terminating the
network polling loop as well (zero further sweeps run), and the error is
then silently discarded by `unwrap_or_default`, not logged.  (The
polling loop itself is an infinite loop that never returns an error, so
the symmetric direction cannot arise.) -/
theorem join_fatal_error_semantics (e : String) (rest : List (Except String Unit))
    (budget : Nat) :
    tryJoinRun (Except.error e :: rest) budget = (some e, 0)
    ∧ joinResultLogs (tryJoinRun (Except.error e :: rest) budget) = [] :=
  ⟨rfl, rfl⟩

end Resources
